import Mathlib

/-!
Verification of the mortgage amortization engine (`src/mortgage.py`).

The Python source is shallowly embedded: floats become exact rationals `ℚ`,
pandas DataFrames become lists of rows, Python `None` becomes `Option`, and
Python exceptions (`ValueError`, `ZeroDivisionError`) become an explicit
error type returned through `Except`.
-/

namespace Mortgage

/-- Embeds Python exceptions raised by the source: `ValueError msg` for the
validation errors raised in `mortgage.__post_init__`, `zeroDivisionError`
for float division by an exact zero denominator. -/
inductive PyError where
  | valueError (msg : String)
  | zeroDivisionError
deriving Repr, DecidableEq

/-- Embeds `monthly_payment(amount, rate, term)`:
`(amount*(rate*(1 + rate)**term)) / (((1 + rate)**term) - 1)`.
Python raises `ZeroDivisionError` when the denominator is zero (e.g. a
zero-rate loan); that case is `none`. -/
def monthly_payment (amount rate : ℚ) (term : ℕ) : Option ℚ :=
  if ((1 + rate) ^ term) - 1 = 0 then none
  else some ((amount * (rate * (1 + rate) ^ term)) / (((1 + rate) ^ term) - 1))

/-- One row of the amortization table built by `build_am_table`. -/
structure AmRow where
  month : ℕ
  interest : ℚ
  principal : ℚ
  balance : ℚ
deriving Repr, DecidableEq

/-- The balance update for months after the first, from the loop body of
`build_am_table`:
`interests.append(max(0, balances[-1]*rate))`;
`principals.append(max(0, min(balances[-1] - interests[-1], total_payment - interests[-1])))`;
`newbal = balances[-1] - principals[-1]`; `newbal = newbal if newbal > 1 else 0`;
`balances.append(max(0, newbal))`. -/
def bal_update (rate total_payment b : ℚ) : ℚ :=
  let i := max 0 (b * rate)
  let pr := max 0 (min (b - i) (total_payment - i))
  let nb := b - pr
  max 0 (if 1 < nb then nb else 0)

/-- Balance after month `m` in `build_am_table` (month 0 means the initial
amount, before any payment). Month 1 is the unclamped
`balances = [amount - principals[0]]` with `principals[0] = total_payment - amount*rate`;
later months apply `bal_update`. -/
def am_balance (amount rate total_payment : ℚ) : ℕ → ℚ
  | 0 => amount
  | 1 => amount - (total_payment - amount * rate)
  | n + 2 => bal_update rate total_payment (am_balance amount rate total_payment (n + 1))

/-- Interest charged in month `m` of `build_am_table`:
month 1 is `interests = [amount*rate]`, later months are
`max(0, balances[-1]*rate)`. -/
def am_interest (amount rate total_payment : ℚ) : ℕ → ℚ
  | 0 => 0
  | 1 => amount * rate
  | n + 2 => max 0 (am_balance amount rate total_payment (n + 1) * rate)

/-- Principal paid in month `m` of `build_am_table`:
month 1 is `principals = [total_payment - interests[0]]`, later months are
`max(0, min(balances[-1] - interests[-1], total_payment - interests[-1]))`. -/
def am_principal (amount rate total_payment : ℚ) : ℕ → ℚ
  | 0 => 0
  | 1 => total_payment - amount * rate
  | n + 2 =>
    let b := am_balance amount rate total_payment (n + 1)
    let i := max 0 (b * rate)
    max 0 (min (b - i) (total_payment - i))

/-- Embeds `build_am_table(term, amount, rate, total_payment)`: the table has
rows for months `1 .. term` (`months = [m for m in range(1, term + 1)]`),
where the row of month `m` carries the interest, principal and balance
sequences defined by the recurrence above. -/
def build_am_table (term : ℕ) (amount rate total_payment : ℚ) : List AmRow :=
  (List.range term).map fun k =>
    { month := k + 1
      interest := am_interest amount rate total_payment (k + 1)
      principal := am_principal amount rate total_payment (k + 1)
      balance := am_balance amount rate total_payment (k + 1) }

/-- Default row used with `List.getD` when indexing tables. -/
def drow : AmRow := { month := 0, interest := 0, principal := 0, balance := 0 }

/-- The raw constructor arguments of the `mortgage` dataclass. Optional
arguments model both the dataclass defaults and the `None` values a CSV row
can supply (the source resets `None` back to the default in
`__post_init__`, so `none` here always means "unset"). -/
structure MortgageParams where
  term : ℕ
  rate : ℚ
  sale_price : Option ℚ := none
  dp_dollars : Option ℚ := none
  dp_percent : Option ℚ := none
  loan_amount : Option ℚ := none
  insurance : Option ℚ := none
  taxes : Option ℚ := none
  add_payment : Option ℚ := none
  payoff_months : Option ℕ := none
  closing_costs : Option ℚ := none
  name : Option String := none
  pmi_amount : Option ℚ := none
  pmi_ltv : Option ℚ := none
deriving Repr, DecidableEq

/-- Tests `x is None or x < 1` — the "undefined or below one dollar" test
used on `loan_amount` and `sale_price` in `__post_init__`. -/
def undef1 (x : Option ℚ) : Bool :=
  match x with
  | none => true
  | some v => v < 1

/-- Tests `x is not None and x > 0` — the PMI-requested test in
`__post_init__`. -/
def posQ (x : Option ℚ) : Bool :=
  match x with
  | none => false
  | some v => 0 < v

/-- The validation and amount-resolution prefix of `mortgage.__post_init__`
(lines 50-76): the two `ValueError` checks, then the loan-amount-first
resolution of `(loan_amount, dp_dollars, dp_percent, sale_price)`.
Float divisions whose denominator is exactly zero raise
`ZeroDivisionError` in Python and are modelled as explicit checks. -/
def resolve_amounts (p : MortgageParams) : Except PyError (ℚ × ℚ × ℚ × ℚ) :=
  if undef1 p.loan_amount && undef1 p.sale_price then
    .error (.valueError "Sale price or loan amount must be defined and >= $1.")
  else if posQ p.pmi_amount && undef1 p.sale_price then
    .error (.valueError "If there is PMI, the sale price must be defined to calculate LTV.")
  else if !undef1 p.loan_amount then
    -- if loan amount is defined, use it
    let la := p.loan_amount.getD 0
    match p.dp_dollars, p.dp_percent with
    | none, none => .ok (la, 0, 0, la + 0)
    | some d, _ =>
      if la + d = 0 then .error .zeroDivisionError
      else .ok (la, d, (d / (la + d)) * 100, la + d)
    | none, some pc =>
      if 1 - pc / 100 = 0 then .error .zeroDivisionError
      else
        let d := ((pc / 100) * la) / (1 - pc / 100)
        .ok (la, d, pc, la + d)
  else
    -- otherwise, use sale price
    let sp := p.sale_price.getD 0
    match p.dp_dollars, p.dp_percent with
    | none, none => .ok (sp - 0, 0, 0, sp)
    | some d, _ => .ok (sp - d, d, (d / sp) * 100, sp)
    | none, some pc =>
      let d := sp * (pc / 100)
      .ok (sp - d, d, pc, sp)

/-- Embeds `.loc[am_table['month'] <= payoff, 'interest'].sum()`. -/
def interest_upto (tbl : List AmRow) (payoff : ℕ) : ℚ :=
  ((tbl.filter fun r => r.month ≤ payoff).map fun r => r.interest).sum

/-- Embeds `.loc[am_table['month'] == m, 'balance'].values[0]` (first
matching row; the source only evaluates this where the row provably
exists). -/
def balance_at (tbl : List AmRow) (m : ℕ) : ℚ :=
  ((tbl.filter fun r => r.month = m).map fun r => r.balance).headD 0

/-- Maximum of a list of months; `none` models the pandas `NaN` that
`.max()` produces on an empty selection. -/
def listMaxN : List ℕ → Option ℕ
  | [] => none
  | a :: as =>
    match listMaxN as with
    | none => some a
    | some b => some (max a b)

/-- Minimum of a list of months; `none` models the pandas `NaN` that
`.min()` produces on an empty selection. -/
def listMinN : List ℕ → Option ℕ
  | [] => none
  | a :: as =>
    match listMinN as with
    | none => some a
    | some b => some (min a b)

/-- Tests `self.months_payoff_by_payment > self.payoff` — pandas
`NaN > payoff` is `False`, so the `none` case is `false`. -/
def soldQ (mp : Option ℕ) (payoff : ℕ) : Bool :=
  match mp with
  | none => false
  | some v => payoff < v

/-- The fully constructed `mortgage` object: the normalized dataclass
fields plus every derived attribute set by `__post_init__`. `Option`-typed
derived fields model pandas `NaN` propagation (empty `.min()`/`.max()`). -/
structure MortgageModel where
  term : ℕ
  rate : ℚ
  sale_price : ℚ
  dp_dollars : ℚ
  dp_percent : ℚ
  loan_amount : ℚ
  insurance : ℚ
  taxes : ℚ
  add_payment : ℚ
  payoff : ℕ
  closing_costs : ℚ
  name : String
  pmi_amount : ℚ
  pmi_ltv : ℚ
  c_rate : ℚ
  base_payment : ℚ
  piti_payment : ℚ
  payment : ℚ
  am_table_base : List AmRow
  am_table : List AmRow
  interest_paid_base : ℚ
  interest_paid : ℚ
  interest_saved : ℚ
  pmi_drop : Option ℕ
  pmi_total_cost : Option ℚ
  finance_costs : Option ℚ
  months_payoff_by_payment : Option ℕ
  balance_at_payoff : ℚ
  payoff_reason : String
  payoff_month : Option ℕ
  cash_to_close : ℚ

/-- Embeds construction of the `mortgage` dataclass (`__post_init__`,
lines 50-114): validation and amount resolution, `None`-to-default
normalization, then all derived attributes in source order. A raised
Python exception is an `Except.error`. -/
def mk_mortgage (p : MortgageParams) : Except PyError MortgageModel :=
  match resolve_amounts p with
  | .error e => .error e
  | .ok (loan_amount, dp_dollars, dp_percent, sale_price) =>
    let insurance := p.insurance.getD 0
    let taxes := p.taxes.getD 0
    let add_payment := p.add_payment.getD 0
    let closing_costs := p.closing_costs.getD 0
    let name := p.name.getD ""
    let pmi_amount := p.pmi_amount.getD 0
    let pmi_ltv := p.pmi_ltv.getD 80
    let c_rate := p.rate / (100 * 12)
    let payoff := p.payoff_months.getD p.term
    match monthly_payment loan_amount c_rate p.term with
    | none => .error .zeroDivisionError
    | some base_payment =>
      let piti_payment := base_payment + insurance / 12 + taxes / 12
      let payment := base_payment + add_payment
      let am_table_base := build_am_table p.term loan_amount c_rate base_payment
      let am_table := build_am_table p.term loan_amount c_rate payment
      let interest_paid_base := interest_upto am_table_base payoff
      let interest_paid := interest_upto am_table payoff
      let interest_saved := interest_paid_base - interest_paid
      let pmi_drop : Option ℕ :=
        if pmi_amount ≤ 0 then some 0
        else listMinN ((am_table.filter fun r =>
          r.balance / sale_price < pmi_ltv / 100).map fun r => r.month)
      let pmi_total_cost := Option.map (fun dm : ℕ => pmi_amount * (dm : ℚ)) pmi_drop
      let finance_costs := pmi_total_cost.map fun c => interest_paid + closing_costs + c
      let months_payoff_by_payment :=
        listMaxN ((am_table.filter fun r => 0 < r.balance).map fun r => r.month)
      let sold := soldQ months_payoff_by_payment payoff
      let balance_at_payoff := if sold then balance_at am_table payoff else 0
      let payoff_reason := if sold then "Sale/Paid Off" else "Payments"
      let payoff_month := months_payoff_by_payment.map fun v => min v payoff
      let cash_to_close := dp_dollars + closing_costs
      .ok
        { term := p.term, rate := p.rate, sale_price, dp_dollars, dp_percent
          loan_amount, insurance, taxes, add_payment, payoff, closing_costs
          name, pmi_amount, pmi_ltv, c_rate, base_payment, piti_payment
          payment, am_table_base, am_table, interest_paid_base, interest_paid
          interest_saved, pmi_drop, pmi_total_cost, finance_costs
          months_payoff_by_payment, balance_at_payoff, payoff_reason
          payoff_month, cash_to_close }

/-- A cell of the summary table: a number the source formats to a dollar
string, a pandas `NaN` that formats as the string `'nan'`, or a literal
string. -/
inductive SCell where
  | num (v : ℚ)
  | nan
  | str (v : String)
deriving Repr, DecidableEq

/-- Format an optional number (`NaN`-aware). -/
def ocell (v : Option ℚ) : SCell :=
  match v with
  | some q => .num q
  | none => .nan

/-- Format an optional month count (`NaN`-aware). -/
def ncell (v : Option ℕ) : SCell :=
  match v with
  | some n => .num (n : ℚ)
  | none => .nan

/-- One column of the comparison table: the column label (the scenario
`name`) and the ordered (metric label, cell) pairs. -/
structure SummaryCol where
  label : String
  cells : List (String × SCell)
deriving Repr, DecidableEq

/-- Embeds `mortgage.summary()`: the ordered metric rows of one column,
keeping the numeric values the source formats into strings. -/
def MortgageModel.summary (m : MortgageModel) : SummaryCol :=
  { label := m.name
    cells :=
      [("Loan Amount", .num m.loan_amount),
       ("Down Payment", .num m.dp_dollars),
       ("Term [months]", .num (m.term : ℚ)),
       ("Rate [%]", .num m.rate),
       ("Payment", .num m.base_payment),
       ("PITI Payment", .num m.piti_payment),
       ("PMI Amount", .num m.pmi_amount),
       ("Additional Payment", .num m.add_payment),
       ("Total Payment", .num (m.piti_payment + m.add_payment + m.pmi_amount)),
       ("PMI Drops Off At Month", ncell m.pmi_drop),
       ("Payoff [months]", ncell m.payoff_month),
       ("Balance at Payoff", .num m.balance_at_payoff),
       ("Payoff Reason", .str m.payoff_reason),
       ("Interest Paid", .num m.interest_paid),
       ("Interest Saved from Added Payments", .num m.interest_saved),
       ("Closing Costs", .num m.closing_costs),
       ("Cash To Close", .num m.cash_to_close),
       ("Total Finance Costs", ocell m.finance_costs)] }

/-- The row loop of `compare_mortgages`: construct each row's `mortgage`
in input order, aborting on the first raised exception, and collect the
summary columns in input order. -/
def compare_list : List MortgageParams → Except PyError (List SummaryCol)
  | [] => .ok []
  | p :: ps =>
    match mk_mortgage p with
    | .error e => .error e
    | .ok m =>
      match compare_list ps with
      | .error e => .error e
      | .ok cols => .ok (m.summary :: cols)

/-- Embeds `compare_mortgages(inputs)`: the concatenated summary table,
`none` when the input has no rows (the source then returns `None`,
since `table` is never assigned). -/
def compare_mortgages (inputs : List MortgageParams) :
    Except PyError (Option (List SummaryCol)) :=
  match compare_list inputs with
  | .error e => .error e
  | .ok [] => .ok none
  | .ok cols => .ok (some cols)

/-- `True` exactly when construction raised the source's `ValueError`
(as opposed to succeeding or raising `ZeroDivisionError`). -/
def isValidationError (r : Except PyError MortgageModel) : Bool :=
  match r with
  | .error (.valueError _) => true
  | _ => false

/-- Modelled from the spec: the spec's validation condition for claim C3,
where "sale price unresolvable" means not supplied with value ≥ 1 and not
derivable via a supplied loan amount (≥ 1) plus down payment. Stated from
the spec's words for comparison with `resolve_amounts`. -/
def claimValidationCond (p : MortgageParams) : Bool :=
  (undef1 p.loan_amount && undef1 p.sale_price) ||
    (posQ p.pmi_amount && undef1 p.sale_price && undef1 p.loan_amount)

/-- Default model used only to extract concrete witnesses from `Except`. -/
instance : Inhabited MortgageModel :=
  ⟨{ term := 0, rate := 0, sale_price := 0, dp_dollars := 0, dp_percent := 0
     loan_amount := 0, insurance := 0, taxes := 0, add_payment := 0
     payoff := 0, closing_costs := 0, name := "", pmi_amount := 0
     pmi_ltv := 0, c_rate := 0, base_payment := 0, piti_payment := 0
     payment := 0, am_table_base := [], am_table := []
     interest_paid_base := 0, interest_paid := 0, interest_saved := 0
     pmi_drop := none, pmi_total_cost := none, finance_costs := none
     months_payoff_by_payment := none, balance_at_payoff := 0
     payoff_reason := "", payoff_month := none, cash_to_close := 0 }⟩

/-- Extracts the model from a successful construction (the default is never
used in the theorems below, where success is a hypothesis or is proved). -/
def getOk (r : Except PyError MortgageModel) : MortgageModel :=
  r.toOption.getD default

/-- Default summary column used with `List.getD`. -/
def dcol : SummaryCol := { label := "", cells := [] }

/-- Default parameter record used with `List.getD`. -/
def dpar : MortgageParams := { term := 0, rate := 0 }

/-- Concrete witness input: a one-month loan of 1000 at 1200% annual rate
(periodic rate exactly 1), which keeps every derived value a small
rational. -/
def wpEx : MortgageParams :=
  { term := 1, rate := 1200, loan_amount := some 1000, name := some "A" }

/-- The model `mk_mortgage wpEx` evaluates to. -/
def wmEx : MortgageModel :=
  { term := 1, rate := 1200, sale_price := 1000, dp_dollars := 0, dp_percent := 0
    loan_amount := 1000, insurance := 0, taxes := 0, add_payment := 0
    payoff := 1, closing_costs := 0, name := "A", pmi_amount := 0, pmi_ltv := 80
    c_rate := 1, base_payment := 2000, piti_payment := 2000, payment := 2000
    am_table_base := [{ month := 1, interest := 1000, principal := 1000, balance := 0 }]
    am_table := [{ month := 1, interest := 1000, principal := 1000, balance := 0 }]
    interest_paid_base := 1000, interest_paid := 1000, interest_saved := 0
    pmi_drop := some 0, pmi_total_cost := some 0, finance_costs := some 1000
    months_payoff_by_payment := none, balance_at_payoff := 0
    payoff_reason := "Payments", payoff_month := none, cash_to_close := 0 }

/-- Concrete witness input: a two-month loan of 1000 at periodic rate 1
with a payoff horizon of 1 month, which is reached while the balance is
still positive. -/
def wpSold : MortgageParams :=
  { term := 2, rate := 1200, loan_amount := some 1000, payoff_months := some 1 }

/-- The model `mk_mortgage wpSold` evaluates to. -/
def wmSold : MortgageModel :=
  { term := 2, rate := 1200, sale_price := 1000, dp_dollars := 0, dp_percent := 0
    loan_amount := 1000, insurance := 0, taxes := 0, add_payment := 0
    payoff := 1, closing_costs := 0, name := "", pmi_amount := 0, pmi_ltv := 80
    c_rate := 1, base_payment := 4000 / 3, piti_payment := 4000 / 3, payment := 4000 / 3
    am_table_base :=
      [{ month := 1, interest := 1000, principal := 1000 / 3, balance := 2000 / 3 },
       { month := 2, interest := 2000 / 3, principal := 0, balance := 2000 / 3 }]
    am_table :=
      [{ month := 1, interest := 1000, principal := 1000 / 3, balance := 2000 / 3 },
       { month := 2, interest := 2000 / 3, principal := 0, balance := 2000 / 3 }]
    interest_paid_base := 1000, interest_paid := 1000, interest_saved := 0
    pmi_drop := some 0, pmi_total_cost := some 0, finance_costs := some 1000
    months_payoff_by_payment := some 2, balance_at_payoff := 2000 / 3
    payoff_reason := "Sale/Paid Off", payoff_month := some 1, cash_to_close := 0 }

/-- Concrete input refuting balance monotonicity: a two-month loan of 1000
at periodic rate 1 with an extra monthly principal payment of 5000, so the
month-1 payment overshoots the balance far past zero. -/
def wc6p : MortgageParams :=
  { term := 2, rate := 1200, loan_amount := some 1000, add_payment := some 5000 }

/-- The model `mk_mortgage wc6p` evaluates to: the month-1 balance is
`-13000/3` (the overshoot is not clamped in month 1) and the month-2
balance is clamped up to `0`, an increase. -/
def wc6m : MortgageModel :=
  { term := 2, rate := 1200, sale_price := 1000, dp_dollars := 0, dp_percent := 0
    loan_amount := 1000, insurance := 0, taxes := 0, add_payment := 5000
    payoff := 2, closing_costs := 0, name := "", pmi_amount := 0, pmi_ltv := 80
    c_rate := 1, base_payment := 4000 / 3, piti_payment := 4000 / 3, payment := 19000 / 3
    am_table_base :=
      [{ month := 1, interest := 1000, principal := 1000 / 3, balance := 2000 / 3 },
       { month := 2, interest := 2000 / 3, principal := 0, balance := 2000 / 3 }]
    am_table :=
      [{ month := 1, interest := 1000, principal := 16000 / 3, balance := -13000 / 3 },
       { month := 2, interest := 0, principal := 0, balance := 0 }]
    interest_paid_base := 5000 / 3, interest_paid := 1000, interest_saved := 2000 / 3
    pmi_drop := some 0, pmi_total_cost := some 0, finance_costs := some 1000
    months_payoff_by_payment := none, balance_at_payoff := 0
    payoff_reason := "Payments", payoff_month := none, cash_to_close := 0 }

/-- Concrete invalid input for the batch comparison: neither loan amount
nor sale price is supplied. -/
def wpBad : MortgageParams := { term := 1, rate := 0 }

end Mortgage

namespace Mortgage

theorem build_am_table_length (t : ℕ) (a r tp : ℚ) :
    (build_am_table t a r tp).length = t := by
  simp [build_am_table]

theorem build_am_table_getD (t : ℕ) (a r tp : ℚ) (k : ℕ) (hk : k < t) :
    (build_am_table t a r tp).getD k drow =
      { month := k + 1
        interest := am_interest a r tp (k + 1)
        principal := am_principal a r tp (k + 1)
        balance := am_balance a r tp (k + 1) } := by
  have h1 : (build_am_table t a r tp)[k]? =
      some { month := k + 1
             interest := am_interest a r tp (k + 1)
             principal := am_principal a r tp (k + 1)
             balance := am_balance a r tp (k + 1) } := by
    simp [build_am_table, List.getElem?_map, List.getElem?_range hk]
  simp [List.getD, h1]

theorem mem_build_am_table {t : ℕ} {a r tp : ℚ} {row : AmRow}
    (h : row ∈ build_am_table t a r tp) :
    ∃ k, k < t ∧ row =
      { month := k + 1
        interest := am_interest a r tp (k + 1)
        principal := am_principal a r tp (k + 1)
        balance := am_balance a r tp (k + 1) } := by
  simp only [build_am_table, List.mem_map, List.mem_range] at h
  obtain ⟨k, hk, he⟩ := h
  exact ⟨k, hk, he.symm⟩

theorem bal_update_def (r tp b : ℚ) :
    bal_update r tp b =
      max 0
        (if 1 < b - max 0 (min (b - max 0 (b * r)) (tp - max 0 (b * r)))
         then b - max 0 (min (b - max 0 (b * r)) (tp - max 0 (b * r)))
         else 0) := rfl

theorem bal_update_nonpos {r tp b : ℚ} (hb : b ≤ 0) : bal_update r tp b = 0 := by
  rw [bal_update_def]
  have hi : 0 ≤ max 0 (b * r) := le_max_left _ _
  have hpr : max 0 (min (b - max 0 (b * r)) (tp - max 0 (b * r))) = 0 := by
    apply max_eq_left
    exact le_trans (min_le_left _ _) (by linarith)
  rw [hpr, sub_zero, if_neg (by linarith : ¬ (1 : ℚ) < b)]
  exact max_self 0

theorem bal_update_zero (r tp : ℚ) : bal_update r tp 0 = 0 :=
  bal_update_nonpos le_rfl

theorem bal_update_nonneg (r tp b : ℚ) : 0 ≤ bal_update r tp b :=
  le_max_left _ _

theorem bal_update_le {r tp b : ℚ} (hb : 0 ≤ b) : bal_update r tp b ≤ b := by
  rw [bal_update_def]
  have hpr : 0 ≤ max 0 (min (b - max 0 (b * r)) (tp - max 0 (b * r))) := le_max_left _ _
  set pr := max 0 (min (b - max 0 (b * r)) (tp - max 0 (b * r))) with hprdef
  rcases lt_or_le 1 (b - pr) with h | h
  · rw [if_pos h]
    have : (0 : ℚ) ≤ b - pr := by linarith
    rw [max_eq_right this]
    linarith
  · rw [if_neg (not_lt.mpr h)]
    simpa using hb

theorem am_balance_succ_succ (a r tp : ℚ) (n : ℕ) :
    am_balance a r tp (n + 2) = bal_update r tp (am_balance a r tp (n + 1)) := rfl

theorem am_balance_nonneg_two (a r tp : ℚ) (n : ℕ) :
    0 ≤ am_balance a r tp (n + 2) :=
  bal_update_nonneg _ _ _

theorem am_balance_zero_persist (a r tp : ℚ) {k : ℕ} (hk : 1 ≤ k)
    (h : am_balance a r tp k = 0) : ∀ j, am_balance a r tp (k + j) = 0 := by
  intro j
  induction j with
  | zero => simpa using h
  | succ n ih =>
    obtain ⟨m, hm⟩ : ∃ m, k + n = m + 1 := ⟨k + n - 1, by omega⟩
    have hrw : k + (n + 1) = m + 2 := by omega
    rw [hrw, am_balance_succ_succ, ← hm, ih, bal_update_zero]

theorem am_interest_of_prev_zero (a r tp : ℚ) {k : ℕ} (hk : 1 ≤ k)
    (h : am_balance a r tp k = 0) : am_interest a r tp (k + 1) = 0 := by
  obtain ⟨m, hm⟩ : ∃ m, k = m + 1 := ⟨k - 1, by omega⟩
  subst hm
  show max 0 (am_balance a r tp (m + 1) * r) = 0
  rw [h, zero_mul, max_self]

theorem am_principal_of_prev_zero (a r tp : ℚ) {k : ℕ} (hk : 1 ≤ k)
    (h : am_balance a r tp k = 0) : am_principal a r tp (k + 1) = 0 := by
  obtain ⟨m, hm⟩ : ∃ m, k = m + 1 := ⟨k - 1, by omega⟩
  subst hm
  show max 0 (min (am_balance a r tp (m + 1) - max 0 (am_balance a r tp (m + 1) * r))
      (tp - max 0 (am_balance a r tp (m + 1) * r))) = 0
  rw [h, zero_mul, max_self, sub_zero, sub_zero]
  exact max_eq_left (le_trans (min_le_left _ _) le_rfl)

theorem am_balance_pos_earlier (a r tp : ℚ) {i j : ℕ} (hi : 1 ≤ i) (hij : i < j)
    (h : 0 < am_balance a r tp j) : 0 < am_balance a r tp i := by
  by_contra hneg
  push_neg at hneg
  rcases Nat.lt_or_ge i 2 with h2 | h2
  · -- i = 1 : the unclamped first balance is nonpositive, so month 2 clamps to 0
    have hi1 : i = 1 := by omega
    subst hi1
    have hz : am_balance a r tp 2 = 0 := by
      rw [show (2 : ℕ) = 0 + 2 from rfl, am_balance_succ_succ]
      exact bal_update_nonpos hneg
    have := am_balance_zero_persist a r tp (k := 2) (by omega) hz (j - 2)
    rw [show 2 + (j - 2) = j by omega] at this
    rw [this] at h
    exact lt_irrefl 0 h
  · obtain ⟨m, hm⟩ : ∃ m, i = m + 2 := ⟨i - 2, by omega⟩
    have hz : am_balance a r tp i = 0 :=
      le_antisymm hneg (hm ▸ am_balance_nonneg_two a r tp m)
    have := am_balance_zero_persist a r tp (k := i) (by omega) hz (j - i)
    rw [show i + (j - i) = j by omega] at this
    rw [this] at h
    exact lt_irrefl 0 h

theorem range_filter_month {t mo : ℕ} (h1 : 1 ≤ mo) (h2 : mo ≤ t) :
    (List.range t).filter (fun k => decide (k + 1 = mo)) = [mo - 1] := by
  induction t with
  | zero => omega
  | succ n ih =>
    rw [List.range_succ, List.filter_append]
    rcases Nat.lt_or_ge mo (n + 1) with h | h
    · rw [ih (by omega)]
      have hne : ¬ (n + 1 = mo) := by omega
      simp [hne]
    · have hmo : mo = n + 1 := by omega
      have hfil : (List.range n).filter (fun k => decide (k + 1 = mo)) = [] := by
        rw [List.filter_eq_nil_iff]
        intro k hk
        rw [List.mem_range] at hk
        simp only [decide_eq_true_eq]
        omega
      rw [hfil]
      simp [hmo]

theorem balance_at_build (t : ℕ) (a r tp : ℚ) {mo : ℕ} (h1 : 1 ≤ mo) (h2 : mo ≤ t) :
    balance_at (build_am_table t a r tp) mo = am_balance a r tp mo := by
  unfold balance_at build_am_table
  rw [List.filter_map, List.map_map]
  have hp : ((fun r_1 => decide (r_1.month = mo)) ∘ fun k =>
      ({ month := k + 1
         interest := am_interest a r tp (k + 1)
         principal := am_principal a r tp (k + 1)
         balance := am_balance a r tp (k + 1) } : AmRow)) =
      fun k => decide (k + 1 = mo) := by
    funext k
    rfl
  rw [hp, range_filter_month h1 h2]
  have : mo - 1 + 1 = mo := by omega
  simp [this]

theorem listMaxN_mem : ∀ {l : List ℕ} {m : ℕ}, listMaxN l = some m → m ∈ l := by
  intro l
  induction l with
  | nil => intro m h; simp [listMaxN] at h
  | cons a as ih =>
    intro m h
    rw [listMaxN] at h
    cases hm : listMaxN as with
    | none =>
      rw [hm] at h
      injection h with h
      exact h ▸ List.mem_cons_self a as
    | some b =>
      rw [hm] at h
      injection h with h
      rcases max_choice a b with hc | hc
      · rw [hc] at h
        exact h ▸ List.mem_cons_self a as
      · rw [hc] at h
        exact h ▸ List.mem_cons_of_mem a (ih hm)

theorem clamp_eq (nb : ℚ) :
    max 0 (if 1 < nb then nb else 0) = if |nb| ≤ 1 then 0 else max 0 nb := by
  rcases lt_or_le 1 nb with h | h
  · have h0 : (0 : ℚ) < nb := lt_trans one_pos h
    have h1 : ¬ |nb| ≤ 1 := by
      rw [abs_of_pos h0]
      linarith
    rw [if_pos h, if_neg h1, max_eq_right (le_of_lt h0)]
  · rw [if_neg (not_lt.mpr h), max_self]
    by_cases h2 : |nb| ≤ 1
    · rw [if_pos h2]
    · have hlt : 1 < |nb| := not_le.mp h2
      have hneg : nb ≤ 0 := by
        rcases abs_cases nb with ⟨he, _⟩ | ⟨he, _⟩
        · rw [he] at hlt
          linarith
        · rw [he] at hlt
          linarith
      rw [if_neg h2, max_eq_left hneg]

end Mortgage

namespace Mortgage

/-- C1: `buildSchedule` computes each row by the specified recurrence:
month 1 has `interest = principal * periodicRate`,
`principal_paid = actualMonthlyPayment - interest`,
`balance = principal - principal_paid`; and for every month `m > 1` with
previous balance `b`, `interest = max(0, b * periodicRate)`,
`principal_paid = max(0, min(b - interest, actualMonthlyPayment - interest))`,
and the new balance is `b - principal_paid`, set to `0` when within `1.0`
of zero and floored at `0` otherwise. -/
theorem C1_build_schedule_recurrence (t : ℕ) (a r tp : ℚ) (ht : 1 ≤ t) :
    ((build_am_table t a r tp).getD 0 drow).interest = a * r
    ∧ ((build_am_table t a r tp).getD 0 drow).principal =
        tp - ((build_am_table t a r tp).getD 0 drow).interest
    ∧ ((build_am_table t a r tp).getD 0 drow).balance =
        a - ((build_am_table t a r tp).getD 0 drow).principal
    ∧ ∀ k, k + 1 < t →
        ((build_am_table t a r tp).getD (k + 1) drow).interest =
          max 0 (((build_am_table t a r tp).getD k drow).balance * r)
        ∧ ((build_am_table t a r tp).getD (k + 1) drow).principal =
          max 0 (min
            (((build_am_table t a r tp).getD k drow).balance -
              ((build_am_table t a r tp).getD (k + 1) drow).interest)
            (tp - ((build_am_table t a r tp).getD (k + 1) drow).interest))
        ∧ ((build_am_table t a r tp).getD (k + 1) drow).balance =
          (if |((build_am_table t a r tp).getD k drow).balance -
              ((build_am_table t a r tp).getD (k + 1) drow).principal| ≤ 1
           then 0
           else max 0 (((build_am_table t a r tp).getD k drow).balance -
              ((build_am_table t a r tp).getD (k + 1) drow).principal)) := by
  rw [build_am_table_getD t a r tp 0 (by omega)]
  dsimp only
  refine ⟨rfl, rfl, rfl, ?_⟩
  intro k hk
  rw [build_am_table_getD t a r tp k (by omega), build_am_table_getD t a r tp (k + 1) hk]
  dsimp only
  refine ⟨rfl, rfl, ?_⟩
  have hb : am_balance a r tp (k + 1 + 1) =
      bal_update r tp (am_balance a r tp (k + 1)) := rfl
  rw [hb, bal_update_def]
  have hpr : am_principal a r tp (k + 1 + 1) =
      max 0 (min (am_balance a r tp (k + 1) - max 0 (am_balance a r tp (k + 1) * r))
        (tp - max 0 (am_balance a r tp (k + 1) * r))) := rfl
  rw [← hpr]
  exact clamp_eq _

/-- C1 witness at `t = 2`, `a = 1000`, `r = 1/100`, `tp = 600`. -/
theorem C1_build_schedule_recurrence_witness :
    ((build_am_table 2 1000 (1 / 100) 600).getD 0 drow).interest = 1000 * (1 / 100)
    ∧ ((build_am_table 2 1000 (1 / 100) 600).getD 0 drow).principal =
        600 - ((build_am_table 2 1000 (1 / 100) 600).getD 0 drow).interest
    ∧ ((build_am_table 2 1000 (1 / 100) 600).getD 0 drow).balance =
        1000 - ((build_am_table 2 1000 (1 / 100) 600).getD 0 drow).principal
    ∧ ∀ k, k + 1 < 2 →
        ((build_am_table 2 1000 (1 / 100) 600).getD (k + 1) drow).interest =
          max 0 (((build_am_table 2 1000 (1 / 100) 600).getD k drow).balance * (1 / 100))
        ∧ ((build_am_table 2 1000 (1 / 100) 600).getD (k + 1) drow).principal =
          max 0 (min
            (((build_am_table 2 1000 (1 / 100) 600).getD k drow).balance -
              ((build_am_table 2 1000 (1 / 100) 600).getD (k + 1) drow).interest)
            (600 - ((build_am_table 2 1000 (1 / 100) 600).getD (k + 1) drow).interest))
        ∧ ((build_am_table 2 1000 (1 / 100) 600).getD (k + 1) drow).balance =
          (if |((build_am_table 2 1000 (1 / 100) 600).getD k drow).balance -
              ((build_am_table 2 1000 (1 / 100) 600).getD (k + 1) drow).principal| ≤ 1
           then 0
           else max 0 (((build_am_table 2 1000 (1 / 100) 600).getD k drow).balance -
              ((build_am_table 2 1000 (1 / 100) 600).getD (k + 1) drow).principal)) :=
  C1_build_schedule_recurrence 2 1000 (1 / 100) 600 (by omega)

/-- C5 counterexample: at `build_am_table 2 100000 (1/100) 500` the month-1
principal entry is `500 - 100000/100 = -500 < 0`, so it is false that all
principal entries (including month 1) of every schedule are non-negative. -/
theorem C5_schedule_nonneg_cex :
    ((build_am_table 2 100000 (1 / 100) 500).getD 0 drow).principal < 0 := by
  rw [build_am_table_getD 2 100000 (1 / 100) 500 0 (by omega)]
  show am_principal 100000 (1 / 100) 500 1 < 0
  show (500 : ℚ) - 100000 * (1 / 100) < 0
  norm_num

/-- C5 (amended): provided the amount and periodic rate are non-negative and
the actual monthly payment covers the month-1 interest
(`amount * rate ≤ actualMonthlyPayment`), all principal and interest entries
(including month 1) are non-negative, and once a row's balance reaches `0`
every later row's balance is `0`. -/
theorem C5_schedule_nonneg_amended (t : ℕ) (a r tp : ℚ) (ha : 0 ≤ a) (hr : 0 ≤ r)
    (htp : a * r ≤ tp) :
    (∀ row ∈ build_am_table t a r tp, 0 ≤ row.interest ∧ 0 ≤ row.principal)
    ∧ ∀ i j, i < j → j < t →
        ((build_am_table t a r tp).getD i drow).balance = 0 →
        ((build_am_table t a r tp).getD j drow).balance = 0 := by
  constructor
  · intro row hrow
    obtain ⟨k, hk, he⟩ := mem_build_am_table hrow
    subst he
    cases k with
    | zero =>
      constructor
      · show (0 : ℚ) ≤ a * r
        exact mul_nonneg ha hr
      · show (0 : ℚ) ≤ tp - a * r
        linarith
    | succ n =>
      constructor
      · show (0 : ℚ) ≤ max 0 (am_balance a r tp (n + 1) * r)
        exact le_max_left _ _
      · show (0 : ℚ) ≤ max 0 (min _ _)
        exact le_max_left _ _
  · intro i j hij hjt hzero
    rw [build_am_table_getD t a r tp i (by omega)] at hzero
    rw [build_am_table_getD t a r tp j hjt]
    have := am_balance_zero_persist a r tp (k := i + 1) (by omega) hzero (j - i)
    rw [show i + 1 + (j - i) = j + 1 by omega] at this
    exact this

/-- C5 amended witness at `t = 2`, `a = 1000`, `r = 1/100`, `tp = 20`. -/
theorem C5_schedule_nonneg_amended_witness :
    (0 : ℚ) ≤ 1000 ∧ (0 : ℚ) ≤ 1 / 100 ∧ (1000 : ℚ) * (1 / 100) ≤ 20
    ∧ ((∀ row ∈ build_am_table 2 1000 (1 / 100) 20, 0 ≤ row.interest ∧ 0 ≤ row.principal)
    ∧ ∀ i j, i < j → j < 2 →
        ((build_am_table 2 1000 (1 / 100) 20).getD i drow).balance = 0 →
        ((build_am_table 2 1000 (1 / 100) 20).getD j drow).balance = 0) :=
  ⟨by norm_num, by norm_num, by norm_num,
    C5_schedule_nonneg_amended 2 1000 (1 / 100) 20 (by norm_num) (by norm_num) (by norm_num)⟩

/-- C10: for every `termMonths ≥ 1`, `buildSchedule` returns exactly
`termMonths` rows, with month fields `1, 2, ..., termMonths` in order, and
never stops early: after the balance reaches `0`, every later row has
interest, principal and balance all `0`, through `termMonths`. -/
theorem C10_row_count_and_zero_tail (t : ℕ) (a r tp : ℚ) (ht : 1 ≤ t) :
    (build_am_table t a r tp).length = t
    ∧ (∀ k, k < t → ((build_am_table t a r tp).getD k drow).month = k + 1)
    ∧ ∀ i j, i < j → j < t →
        ((build_am_table t a r tp).getD i drow).balance = 0 →
        ((build_am_table t a r tp).getD j drow).interest = 0
        ∧ ((build_am_table t a r tp).getD j drow).principal = 0
        ∧ ((build_am_table t a r tp).getD j drow).balance = 0 := by
  refine ⟨build_am_table_length t a r tp, ?_, ?_⟩
  · intro k hk
    rw [build_am_table_getD t a r tp k hk]
  · intro i j hij hjt hzero
    rw [build_am_table_getD t a r tp i (by omega)] at hzero
    rw [build_am_table_getD t a r tp j hjt]
    have hbalj : am_balance a r tp j = 0 := by
      have := am_balance_zero_persist a r tp (k := i + 1) (by omega) hzero (j - i - 1)
      rw [show i + 1 + (j - i - 1) = j by omega] at this
      exact this
    have hbalj1 : am_balance a r tp (j + 1) = 0 := by
      have := am_balance_zero_persist a r tp (k := i + 1) (by omega) hzero (j - i)
      rw [show i + 1 + (j - i) = j + 1 by omega] at this
      exact this
    exact ⟨am_interest_of_prev_zero a r tp (by omega) hbalj,
      am_principal_of_prev_zero a r tp (by omega) hbalj, hbalj1⟩

/-- C10 witness at `t = 2`, `a = 1000`, `r = 1/100`, `tp = 600`. -/
theorem C10_row_count_and_zero_tail_witness :
    (build_am_table 2 1000 (1 / 100) 600).length = 2
    ∧ (∀ k, k < 2 → ((build_am_table 2 1000 (1 / 100) 600).getD k drow).month = k + 1)
    ∧ ∀ i j, i < j → j < 2 →
        ((build_am_table 2 1000 (1 / 100) 600).getD i drow).balance = 0 →
        ((build_am_table 2 1000 (1 / 100) 600).getD j drow).interest = 0
        ∧ ((build_am_table 2 1000 (1 / 100) 600).getD j drow).principal = 0
        ∧ ((build_am_table 2 1000 (1 / 100) 600).getD j drow).balance = 0 :=
  C10_row_count_and_zero_tail 2 1000 (1 / 100) 600 (by omega)

end Mortgage

namespace Mortgage

theorem wmEx_eval : mk_mortgage wpEx = .ok wmEx := by
  have hres : resolve_amounts wpEx = .ok (1000, 0, 0, 1000 + 0) := by
    norm_num [resolve_amounts, wpEx, undef1, posQ]
  have hmp : monthly_payment 1000 ((1200 : ℚ) / (100 * 12)) 1 = some 2000 := by
    norm_num [monthly_payment]
  unfold mk_mortgage
  rw [hres]
  dsimp only [wpEx]
  rw [hmp]
  dsimp only
  simp only [Except.ok.injEq]
  norm_num [wmEx, build_am_table, List.range_succ, interest_upto, balance_at,
    listMaxN, listMinN, soldQ, am_interest, am_principal, am_balance, bal_update_def,
    MortgageModel.mk.injEq, AmRow.mk.injEq, List.filter_cons, List.filter_nil]

theorem wmSold_eval : mk_mortgage wpSold = .ok wmSold := by
  have hres : resolve_amounts wpSold = .ok (1000, 0, 0, 1000 + 0) := by
    norm_num [resolve_amounts, wpSold, undef1, posQ]
  have hmp : monthly_payment 1000 ((1200 : ℚ) / (100 * 12)) 2 = some (4000 / 3) := by
    norm_num [monthly_payment]
  unfold mk_mortgage
  rw [hres]
  dsimp only [wpSold]
  rw [hmp]
  dsimp only
  simp only [Except.ok.injEq]
  norm_num [wmSold, build_am_table, List.range_succ, interest_upto, balance_at,
    listMaxN, listMinN, soldQ, am_interest, am_principal, am_balance, bal_update_def,
    MortgageModel.mk.injEq, AmRow.mk.injEq, List.filter_cons, List.filter_nil]

theorem wc6m_eval : mk_mortgage wc6p = .ok wc6m := by
  have hres : resolve_amounts wc6p = .ok (1000, 0, 0, 1000 + 0) := by
    norm_num [resolve_amounts, wc6p, undef1, posQ]
  have hmp : monthly_payment 1000 ((1200 : ℚ) / (100 * 12)) 2 = some (4000 / 3) := by
    norm_num [monthly_payment]
  unfold mk_mortgage
  rw [hres]
  dsimp only [wc6p]
  rw [hmp]
  dsimp only
  simp only [Except.ok.injEq]
  norm_num [wc6m, build_am_table, List.range_succ, interest_upto, balance_at,
    listMaxN, listMinN, soldQ, am_interest, am_principal, am_balance, bal_update_def,
    MortgageModel.mk.injEq, AmRow.mk.injEq, List.filter_cons, List.filter_nil]

theorem wpBad_eval :
    mk_mortgage wpBad =
      .error (.valueError "Sale price or loan amount must be defined and >= $1.") := by
  norm_num [mk_mortgage, resolve_amounts, wpBad, undef1, posQ]

end Mortgage

namespace Mortgage

theorem mk_ok_spec {p : MortgageParams} {m : MortgageModel}
    (h : mk_mortgage p = .ok m) :
    resolve_amounts p = .ok (m.loan_amount, m.dp_dollars, m.dp_percent, m.sale_price)
    ∧ m.term = p.term
    ∧ m.rate = p.rate
    ∧ m.c_rate = p.rate / (100 * 12)
    ∧ m.payoff = p.payoff_months.getD p.term
    ∧ m.add_payment = p.add_payment.getD 0
    ∧ m.name = p.name.getD ""
    ∧ monthly_payment m.loan_amount m.c_rate m.term = some m.base_payment
    ∧ m.payment = m.base_payment + m.add_payment
    ∧ m.am_table_base = build_am_table m.term m.loan_amount m.c_rate m.base_payment
    ∧ m.am_table = build_am_table m.term m.loan_amount m.c_rate m.payment
    ∧ m.interest_paid_base = interest_upto m.am_table_base m.payoff
    ∧ m.interest_paid = interest_upto m.am_table m.payoff
    ∧ m.interest_saved = m.interest_paid_base - m.interest_paid
    ∧ m.months_payoff_by_payment =
        listMaxN ((m.am_table.filter fun r => 0 < r.balance).map fun r => r.month)
    ∧ m.balance_at_payoff =
        (if soldQ m.months_payoff_by_payment m.payoff
         then balance_at m.am_table m.payoff else 0)
    ∧ m.payoff_reason =
        (if soldQ m.months_payoff_by_payment m.payoff
         then "Sale/Paid Off" else "Payments")
    ∧ m.payoff_month = m.months_payoff_by_payment.map fun v => min v m.payoff := by
  unfold mk_mortgage at h
  cases hr : resolve_amounts p with
  | error e =>
    rw [hr] at h
    exact absurd h (by simp)
  | ok q =>
    obtain ⟨l, d, pc, s⟩ := q
    rw [hr] at h
    dsimp only at h
    cases hmp : monthly_payment l (p.rate / (100 * 12)) p.term with
    | none =>
      rw [hmp] at h
      exact absurd h (by simp)
    | some bp =>
      rw [hmp] at h
      dsimp only at h
      rw [Except.ok.injEq] at h
      subst h
      exact ⟨rfl, rfl, rfl, rfl, rfl, rfl, rfl, hmp, rfl, rfl, rfl, rfl, rfl, rfl,
        rfl, rfl, rfl, rfl⟩

theorem resolve_ok_loan_eq {p : MortgageParams} {l d pc s : ℚ}
    (h : resolve_amounts p = .ok (l, d, pc, s)) : l = s - d := by
  unfold resolve_amounts at h
  by_cases h1 : (undef1 p.loan_amount && undef1 p.sale_price) = true
  · rw [if_pos h1] at h
    exact absurd h (by simp)
  · rw [if_neg h1] at h
    by_cases h2 : (posQ p.pmi_amount && undef1 p.sale_price) = true
    · rw [if_pos h2] at h
      exact absurd h (by simp)
    · rw [if_neg h2] at h
      by_cases h3 : (!undef1 p.loan_amount) = true
      · rw [if_pos h3] at h
        rcases hd : p.dp_dollars with _ | dv <;> rcases hp : p.dp_percent with _ | pv <;>
            rw [hd, hp] at h <;> dsimp only at h
        · rw [Except.ok.injEq, Prod.mk.injEq, Prod.mk.injEq, Prod.mk.injEq] at h
          obtain ⟨e1, e2, e3, e4⟩ := h
          subst e1; subst e2; subst e4
          ring
        · split at h
          · exact absurd h (by simp)
          · rw [Except.ok.injEq, Prod.mk.injEq, Prod.mk.injEq, Prod.mk.injEq] at h
            obtain ⟨e1, e2, e3, e4⟩ := h
            subst e1; subst e2; subst e4
            ring
        · split at h
          · exact absurd h (by simp)
          · rw [Except.ok.injEq, Prod.mk.injEq, Prod.mk.injEq, Prod.mk.injEq] at h
            obtain ⟨e1, e2, e3, e4⟩ := h
            subst e1; subst e2; subst e4
            ring
        · split at h
          · exact absurd h (by simp)
          · rw [Except.ok.injEq, Prod.mk.injEq, Prod.mk.injEq, Prod.mk.injEq] at h
            obtain ⟨e1, e2, e3, e4⟩ := h
            subst e1; subst e2; subst e4
            ring
      · rw [if_neg h3] at h
        rcases hd : p.dp_dollars with _ | dv <;> rcases hp : p.dp_percent with _ | pv <;>
            rw [hd, hp] at h <;> dsimp only at h <;>
          · rw [Except.ok.injEq, Prod.mk.injEq, Prod.mk.injEq, Prod.mk.injEq] at h
            obtain ⟨e1, e2, e3, e4⟩ := h
            subst e1; subst e2; subst e4
            ring

end Mortgage

namespace Mortgage

/-- C2: the claim says a valid zero-rate loan constructs successfully with
`basePayment = loanAmount / termMonths` and an all-zero interest column.
The code instead crashes: with `rate = 0` the closed-form denominator
`(1 + 0)^term - 1` is exactly `0` and `monthly_payment` raises
`ZeroDivisionError` inside `__post_init__`, which never special-cases the
zero rate the way the spec requires of callers. -/
theorem C2_zero_rate_crash :
    mk_mortgage { term := 360, rate := 0, loan_amount := some 240000 } =
      .error .zeroDivisionError := by
  have hres : resolve_amounts { term := 360, rate := 0, loan_amount := some 240000 } =
      .ok (240000, 0, 0, 240000 + 0) := by
    norm_num [resolve_amounts, undef1, posQ]
  have hmp : monthly_payment 240000 ((0 : ℚ) / (100 * 12)) 360 = none := by
    norm_num [monthly_payment]
  unfold mk_mortgage
  rw [hres]
  dsimp only
  rw [hmp]

/-- C4: for every successfully constructed model,
`loanAmount = salePrice - downPaymentDollars`, whichever combination of
loan amount, sale price, and down payment fields was supplied. -/
theorem C4_loan_amount_resolution (p : MortgageParams) (m : MortgageModel)
    (h : mk_mortgage p = .ok m) : m.loan_amount = m.sale_price - m.dp_dollars := by
  obtain ⟨hr, -⟩ := mk_ok_spec h
  exact resolve_ok_loan_eq hr

/-- C4 witness at the concrete loan `wpEx`. -/
theorem C4_loan_amount_resolution_witness :
    mk_mortgage wpEx = .ok wmEx
    ∧ wmEx.loan_amount = wmEx.sale_price - wmEx.dp_dollars :=
  ⟨wmEx_eval, C4_loan_amount_resolution wpEx wmEx wmEx_eval⟩

/-- C8: with a zero extra monthly principal, the baseline and actual
schedules are identical row for row and `interestSaved = 0`. -/
theorem C8_zero_extra_payment (p : MortgageParams) (m : MortgageModel)
    (h : mk_mortgage p = .ok m) (ha : m.add_payment = 0) :
    m.am_table_base = m.am_table ∧ m.interest_saved = 0 := by
  obtain ⟨-, -, -, -, -, -, -, -, hpay, htb, hta, hipb, hip, hsaved, -, -, -, -⟩ :=
    mk_ok_spec h
  have hpay0 : m.payment = m.base_payment := by rw [hpay, ha, add_zero]
  have htab : m.am_table_base = m.am_table := by rw [htb, hta, hpay0]
  refine ⟨htab, ?_⟩
  rw [hsaved, hipb, hip, htab]
  ring

/-- C8 witness at the concrete loan `wpEx` (its `add_payment` is unset and
so resolves to `0`). -/
theorem C8_zero_extra_payment_witness :
    mk_mortgage wpEx = .ok wmEx ∧ wmEx.add_payment = 0
    ∧ (wmEx.am_table_base = wmEx.am_table ∧ wmEx.interest_saved = 0) :=
  ⟨wmEx_eval, rfl, C8_zero_extra_payment wpEx wmEx wmEx_eval rfl⟩

end Mortgage

namespace Mortgage

theorem isValidationError_resolve_ok {p : MortgageParams} {l d pc s : ℚ}
    (hr : resolve_amounts p = .ok (l, d, pc, s)) :
    isValidationError (mk_mortgage p) = false := by
  unfold mk_mortgage
  rw [hr]
  dsimp only
  cases hmp : monthly_payment l (p.rate / (100 * 12)) p.term with
  | none => rfl
  | some bp => rfl

theorem resolve_amounts_error_cases {p : MortgageParams} {e : PyError}
    (h : resolve_amounts p = .error e)
    (h1 : (undef1 p.loan_amount && undef1 p.sale_price) = false)
    (h2 : (posQ p.pmi_amount && undef1 p.sale_price) = false) :
    e = .zeroDivisionError := by
  unfold resolve_amounts at h
  rw [if_neg (by simp [h1]), if_neg (by simp [h2])] at h
  by_cases h3 : (!undef1 p.loan_amount) = true
  · rw [if_pos h3] at h
    rcases hd : p.dp_dollars with _ | dv <;> rcases hp : p.dp_percent with _ | pv <;>
        rw [hd, hp] at h <;> dsimp only at h
    · exact absurd h (by simp)
    · split at h
      · rw [Except.error.injEq] at h
        exact h.symm
      · exact absurd h (by simp)
    · split at h
      · rw [Except.error.injEq] at h
        exact h.symm
      · exact absurd h (by simp)
    · split at h
      · rw [Except.error.injEq] at h
        exact h.symm
      · exact absurd h (by simp)
  · rw [if_neg h3] at h
    rcases hd : p.dp_dollars with _ | dv <;> rcases hp : p.dp_percent with _ | pv <;>
        rw [hd, hp] at h <;> dsimp only at h <;> exact absurd h (by simp)

/-- C3 counterexample: the input supplies `loan_amount = 200000` (so per the
spec the sale price is resolvable as loan amount plus down payment) together
with `pmi_amount = 100`, and the claim's validation condition is false; yet
construction raises the PMI `ValueError`, because the code only accepts a
*directly supplied* sale price when PMI is positive. -/
theorem C3_validation_iff_cex :
    isValidationError (mk_mortgage
      { term := 360, rate := 3, loan_amount := some 200000, pmi_amount := some 100 }) = true
    ∧ claimValidationCond
      { term := 360, rate := 3, loan_amount := some 200000, pmi_amount := some 100 } = false := by
  constructor
  · norm_num [mk_mortgage, resolve_amounts, undef1, posQ, isValidationError]
  · norm_num [claimValidationCond, undef1, posQ]

/-- C3 (amended): construction raises a `ValueError` exactly when (a)
neither `loan_amount` nor `sale_price` is supplied with value at least 1,
or (b) `pmi_amount > 0` and `sale_price` itself is not supplied with value
at least 1 — resolvability of the sale price through the loan amount does
not prevent the PMI error. (On any error no model is produced, since
construction returns the exception instead of a model.) -/
theorem C3_validation_iff_amended (p : MortgageParams) :
    isValidationError (mk_mortgage p) =
      ((undef1 p.loan_amount && undef1 p.sale_price) ||
        (posQ p.pmi_amount && undef1 p.sale_price)) := by
  by_cases h1 : (undef1 p.loan_amount && undef1 p.sale_price) = true
  · have hres : resolve_amounts p =
        .error (.valueError "Sale price or loan amount must be defined and >= $1.") := by
      unfold resolve_amounts
      rw [if_pos h1]
    unfold mk_mortgage
    rw [hres, h1]
    rfl
  · have h1f : (undef1 p.loan_amount && undef1 p.sale_price) = false :=
      Bool.eq_false_iff.mpr h1
    by_cases h2 : (posQ p.pmi_amount && undef1 p.sale_price) = true
    · have hres : resolve_amounts p =
          .error (.valueError
            "If there is PMI, the sale price must be defined to calculate LTV.") := by
        unfold resolve_amounts
        rw [if_neg (by simp [h1f]), if_pos h2]
      unfold mk_mortgage
      rw [hres, h1f, h2]
      rfl
    · have h2f : (posQ p.pmi_amount && undef1 p.sale_price) = false :=
        Bool.eq_false_iff.mpr h2
      rw [h1f, h2f]
      show isValidationError (mk_mortgage p) = false
      cases hres : resolve_amounts p with
      | error e =>
        have he : e = .zeroDivisionError := resolve_amounts_error_cases hres h1f h2f
        subst he
        unfold mk_mortgage
        rw [hres]
        rfl
      | ok q =>
        obtain ⟨l, d, pc, s⟩ := q
        exact isValidationError_resolve_ok hres

end Mortgage

namespace Mortgage

theorem base_payment_ge {L c : ℚ} {t : ℕ} {b : ℚ} (hL : 0 ≤ L) (hc : 0 < c)
    (ht : 1 ≤ t) (hb : monthly_payment L c t = some b) : L * c ≤ b := by
  unfold monthly_payment at hb
  have hX : 1 < (1 + c) ^ t := one_lt_pow₀ (by linarith) (by omega)
  have hD : (0 : ℚ) < (1 + c) ^ t - 1 := by linarith
  rw [if_neg (by linarith)] at hb
  injection hb with hb
  rw [← hb, le_div_iff₀ hD]
  have h2 : L * c * ((1 + c) ^ t - 1) = L * (c * (1 + c) ^ t) - L * c := by ring
  rw [h2]
  have h3 : 0 ≤ L * c := mul_nonneg hL hc.le
  linarith

/-- C6 counterexample: for the loan `wc6p` (extra monthly principal 5000,
which is non-negative) the actual schedule's month-1 balance is `-13000/3`
while the month-2 balance is `0`: the balance sequence increases from
month 1 to month 2, refuting monotonicity as claimed. -/
theorem C6_balance_monotone_cex :
    mk_mortgage wc6p = .ok wc6m ∧ (0 : ℚ) ≤ wc6m.add_payment
    ∧ (wc6m.am_table.getD 0 drow).balance < (wc6m.am_table.getD 1 drow).balance := by
  refine ⟨wc6m_eval, by norm_num [wc6m], ?_⟩
  norm_num [wc6m, List.getD_cons_zero, List.getD_cons_succ]

/-- C6 (amended): the balance sequence of the actual schedule is
non-increasing (with `balance[0]` the initial principal) provided,
in addition to the non-negative extra payment, the actual payment does not
exceed `loanAmount * (1 + periodicRate)` (so the unclamped month-1 balance
stays non-negative), the rate is non-negative and the loan amount is at
least 1; with a large enough extra payment the unclamped month-1 balance
goes negative and the month-2 clamp raises it back to `0`. -/
theorem C6_balance_monotone_amended (p : MortgageParams) (m : MortgageModel)
    (h : mk_mortgage p = .ok m) (ht : 1 ≤ m.term) (hr0 : 0 ≤ m.rate)
    (hL : 1 ≤ m.loan_amount) (ha : 0 ≤ m.add_payment)
    (hub : m.payment ≤ m.loan_amount * (1 + m.c_rate)) :
    ((m.am_table.getD 0 drow).balance ≤ m.loan_amount)
    ∧ ∀ k, k + 1 < m.term →
        (m.am_table.getD (k + 1) drow).balance ≤ (m.am_table.getD k drow).balance := by
  obtain ⟨-, -, hrate, hcrate, -, -, -, hmp, hpay, -, hta, -, -, -, -, -, -, -⟩ :=
    mk_ok_spec h
  have hc0 : 0 ≤ m.c_rate := by
    rw [hcrate, ← hrate]
    exact div_nonneg hr0 (by norm_num)
  have hc : 0 < m.c_rate := by
    rcases lt_or_eq_of_le hc0 with hlt | heq
    · exact hlt
    · exfalso
      have hnone : monthly_payment m.loan_amount 0 m.term = none := by
        unfold monthly_payment
        rw [if_pos (by norm_num)]
      rw [← heq] at hmp
      rw [hnone] at hmp
      exact Option.noConfusion hmp
  have hbase : m.loan_amount * m.c_rate ≤ m.base_payment :=
    base_payment_ge (by linarith) hc ht hmp
  have hlb : m.loan_amount * m.c_rate ≤ m.payment := by
    rw [hpay]
    linarith
  constructor
  · rw [hta, build_am_table_getD _ _ _ _ 0 (by omega)]
    show m.loan_amount - (m.payment - m.loan_amount * m.c_rate) ≤ m.loan_amount
    linarith
  · intro k hk
    rw [hta, build_am_table_getD _ _ _ _ (k + 1) hk,
      build_am_table_getD _ _ _ _ k (by omega)]
    show am_balance m.loan_amount m.c_rate m.payment (k + 1 + 1) ≤
      am_balance m.loan_amount m.c_rate m.payment (k + 1)
    have hprev : 0 ≤ am_balance m.loan_amount m.c_rate m.payment (k + 1) := by
      cases k with
      | zero =>
        show (0 : ℚ) ≤ m.loan_amount - (m.payment - m.loan_amount * m.c_rate)
        have hub2 : m.payment ≤ m.loan_amount + m.loan_amount * m.c_rate := by
          have : m.loan_amount * (1 + m.c_rate) =
              m.loan_amount + m.loan_amount * m.c_rate := by ring
          linarith [hub, this.le]
        linarith
      | succ n => exact am_balance_nonneg_two _ _ _ n
    calc am_balance m.loan_amount m.c_rate m.payment (k + 1 + 1)
        = bal_update m.c_rate m.payment
            (am_balance m.loan_amount m.c_rate m.payment (k + 1)) := rfl
      _ ≤ am_balance m.loan_amount m.c_rate m.payment (k + 1) := bal_update_le hprev

/-- C6 amended witness at the concrete loan `wpEx`. -/
theorem C6_balance_monotone_amended_witness :
    mk_mortgage wpEx = .ok wmEx
    ∧ (1 ≤ wmEx.term ∧ (0 : ℚ) ≤ wmEx.rate ∧ 1 ≤ wmEx.loan_amount
        ∧ (0 : ℚ) ≤ wmEx.add_payment
        ∧ wmEx.payment ≤ wmEx.loan_amount * (1 + wmEx.c_rate))
    ∧ ((wmEx.am_table.getD 0 drow).balance ≤ wmEx.loan_amount
        ∧ ∀ k, k + 1 < wmEx.term →
            (wmEx.am_table.getD (k + 1) drow).balance ≤
              (wmEx.am_table.getD k drow).balance) :=
  ⟨wmEx_eval,
    ⟨by norm_num [wmEx], by norm_num [wmEx], by norm_num [wmEx], by norm_num [wmEx],
      by norm_num [wmEx]⟩,
    C6_balance_monotone_amended wpEx wmEx wmEx_eval (by norm_num [wmEx])
      (by norm_num [wmEx]) (by norm_num [wmEx]) (by norm_num [wmEx])
      (by norm_num [wmEx])⟩

end Mortgage

namespace Mortgage

/-- C7: with `monthsToNaturalPayoff` the max month carrying a positive
balance in the actual schedule (`some mp`): if it exceeds the payoff
horizon then `payoffMonth` is the horizon, `balanceAtPayoff` is the actual
schedule's balance at that month and is positive, and the payoff reason is
the sold/refinanced one; otherwise `payoffMonth = monthsToNaturalPayoff`,
`balanceAtPayoff = 0`, and the payoff reason is natural payoff. -/
theorem C7_payoff_resolution (p : MortgageParams) (m : MortgageModel) (mp : ℕ)
    (h : mk_mortgage p = .ok m) (hmp : m.months_payoff_by_payment = some mp)
    (hpo : 1 ≤ m.payoff) :
    (m.payoff < mp →
      m.payoff_month = some m.payoff
      ∧ m.payoff_reason = "Sale/Paid Off"
      ∧ m.balance_at_payoff = balance_at m.am_table m.payoff
      ∧ 0 < m.balance_at_payoff)
    ∧ (mp ≤ m.payoff →
      m.payoff_month = some mp
      ∧ m.payoff_reason = "Payments"
      ∧ m.balance_at_payoff = 0) := by
  obtain ⟨-, -, -, -, -, -, -, -, -, -, hta, -, -, -, hmonths, hbal, hreason, hpm⟩ :=
    mk_ok_spec h
  have hmem : mp ∈ (m.am_table.filter fun r => 0 < r.balance).map fun r => r.month :=
    listMaxN_mem (hmonths.symm.trans hmp)
  rw [List.mem_map] at hmem
  obtain ⟨row, hrowmem, hrowmonth⟩ := hmem
  rw [List.mem_filter] at hrowmem
  obtain ⟨hrowtab, hrowpos⟩ := hrowmem
  rw [hta] at hrowtab
  obtain ⟨k, hk, hkrow⟩ := mem_build_am_table hrowtab
  have hmpk : mp = k + 1 := by
    rw [← hrowmonth, hkrow]
  have hbalpos : 0 < am_balance m.loan_amount m.c_rate m.payment mp := by
    have hposrow : 0 < row.balance := of_decide_eq_true hrowpos
    rw [hkrow] at hposrow
    rw [hmpk]
    exact hposrow
  constructor
  · intro hsold
    have hsoldb : soldQ m.months_payoff_by_payment m.payoff = true := by
      rw [hmp]
      exact decide_eq_true hsold
    refine ⟨?_, ?_, ?_, ?_⟩
    · rw [hpm, hmp]
      simp only [Option.map_some']
      rw [min_eq_right (le_of_lt hsold)]
    · rw [hreason, if_pos hsoldb]
    · rw [hbal, if_pos hsoldb]
    · rw [hbal, if_pos hsoldb, hta]
      have hle : m.payoff ≤ m.term := by omega
      rw [balance_at_build _ _ _ _ hpo hle]
      exact am_balance_pos_earlier _ _ _ hpo hsold hbalpos
  · intro hnat
    have hsoldb : soldQ m.months_payoff_by_payment m.payoff = false := by
      rw [hmp]
      exact decide_eq_false (by omega)
    refine ⟨?_, ?_, ?_⟩
    · rw [hpm, hmp]
      simp only [Option.map_some']
      rw [min_eq_left hnat]
    · rw [hreason, if_neg (by simp [hsoldb])]
    · rw [hbal, if_neg (by simp [hsoldb])]

/-- C7 witness at the concrete loan `wpSold` (payoff horizon 1 month,
natural payoff beyond the horizon). -/
theorem C7_payoff_resolution_witness :
    mk_mortgage wpSold = .ok wmSold
    ∧ wmSold.months_payoff_by_payment = some 2
    ∧ 1 ≤ wmSold.payoff
    ∧ ((wmSold.payoff < 2 →
        wmSold.payoff_month = some wmSold.payoff
        ∧ wmSold.payoff_reason = "Sale/Paid Off"
        ∧ wmSold.balance_at_payoff = balance_at wmSold.am_table wmSold.payoff
        ∧ 0 < wmSold.balance_at_payoff)
      ∧ (2 ≤ wmSold.payoff →
        wmSold.payoff_month = some 2
        ∧ wmSold.payoff_reason = "Payments"
        ∧ wmSold.balance_at_payoff = 0)) :=
  ⟨wmSold_eval, rfl, by norm_num [wmSold],
    C7_payoff_resolution wpSold wmSold 2 wmSold_eval rfl (by norm_num [wmSold])⟩

end Mortgage

namespace Mortgage

theorem compare_list_append_error :
    ∀ (pre : List MortgageParams) (bad : MortgageParams) (rest : List MortgageParams)
      (e : PyError),
      (∀ q ∈ pre, ∃ mq, mk_mortgage q = .ok mq) →
      mk_mortgage bad = .error e →
      compare_list (pre ++ bad :: rest) = .error e := by
  intro pre
  induction pre with
  | nil =>
    intro bad rest e hpre hbad
    show compare_list (bad :: rest) = .error e
    unfold compare_list
    rw [hbad]
  | cons q qs ih =>
    intro bad rest e hpre hbad
    obtain ⟨mq, hmq⟩ := hpre q (List.mem_cons_self q qs)
    show compare_list (q :: (qs ++ bad :: rest)) = .error e
    unfold compare_list
    rw [hmq]
    dsimp only
    rw [ih bad rest e (fun r hr => hpre r (List.mem_cons_of_mem q hr)) hbad]

theorem compare_list_all_ok :
    ∀ (rows : List MortgageParams),
      (∀ q ∈ rows, ∃ mq, mk_mortgage q = .ok mq) →
      ∃ cols, compare_list rows = .ok cols
        ∧ cols.length = rows.length
        ∧ ∀ i, i < rows.length →
            ∃ mq, mk_mortgage (rows.getD i dpar) = .ok mq
              ∧ cols.getD i dcol = mq.summary := by
  intro rows
  induction rows with
  | nil =>
    intro _
    exact ⟨[], rfl, rfl, fun i hi => absurd hi (by simp)⟩
  | cons q qs ih =>
    intro h
    obtain ⟨mq, hmq⟩ := h q (List.mem_cons_self q qs)
    obtain ⟨cols, hcols, hlen, hcol⟩ := ih (fun r hr => h r (List.mem_cons_of_mem q hr))
    refine ⟨mq.summary :: cols, ?_, by simp [hlen], ?_⟩
    · unfold compare_list
      rw [hmq]
      dsimp only
      rw [hcols]
    · intro i hi
      cases i with
      | zero => exact ⟨mq, hmq, rfl⟩
      | succ j =>
        have hj : j < qs.length := by
          simp only [List.length_cons] at hi
          omega
        obtain ⟨mq', hmq', hcol'⟩ := hcol j hj
        exact ⟨mq', hmq', hcol'⟩

/-- C9: batch comparison aborts on the first invalid row, propagating that
row's exception with no partial table; when every row is valid, the output
has one summary column per input row, and the column at each index is the
summary of that same index's input row (input order preserved). -/
theorem C9_compare_batch (rows : List MortgageParams) :
    (∀ (pre : List MortgageParams) (bad : MortgageParams) (rest : List MortgageParams)
      (e : PyError),
      rows = pre ++ bad :: rest →
      (∀ q ∈ pre, ∃ mq, mk_mortgage q = .ok mq) →
      mk_mortgage bad = .error e →
      compare_mortgages rows = .error e)
    ∧ ((∀ q ∈ rows, ∃ mq, mk_mortgage q = .ok mq) →
      ∃ cols, compare_list rows = .ok cols
        ∧ cols.length = rows.length
        ∧ (∀ i, i < rows.length →
            ∃ mq, mk_mortgage (rows.getD i dpar) = .ok mq
              ∧ cols.getD i dcol = mq.summary)
        ∧ (rows ≠ [] → compare_mortgages rows = .ok (some cols))) := by
  constructor
  · intro pre bad rest e hsplit hpre hbad
    have hlist : compare_list rows = .error e := by
      rw [hsplit]
      exact compare_list_append_error pre bad rest e hpre hbad
    unfold compare_mortgages
    rw [hlist]
  · intro h
    obtain ⟨cols, hcols, hlen, hcol⟩ := compare_list_all_ok rows h
    refine ⟨cols, hcols, hlen, hcol, ?_⟩
    intro hne
    unfold compare_mortgages
    rw [hcols]
    cases cols with
    | nil =>
      exfalso
      cases rows with
      | nil => exact hne rfl
      | cons q qs => simp at hlen
    | cons c cs => rfl

/-- C9 witness: the batch `[wpEx, wpBad]` aborts with the first row's
validation error, and the all-valid batch `[wpEx]` yields one column per
row in input order. -/
theorem C9_compare_batch_witness :
    compare_mortgages ([wpEx] ++ wpBad :: []) =
      .error (.valueError "Sale price or loan amount must be defined and >= $1.")
    ∧ ∃ cols, compare_list [wpEx] = .ok cols
        ∧ cols.length = [wpEx].length
        ∧ (∀ i, i < [wpEx].length →
            ∃ mq, mk_mortgage ([wpEx].getD i dpar) = .ok mq
              ∧ cols.getD i dcol = mq.summary)
        ∧ ([wpEx] ≠ [] → compare_mortgages [wpEx] = .ok (some cols)) := by
  have hpre : ∀ q ∈ [wpEx], ∃ mq, mk_mortgage q = .ok mq := by
    intro q hq
    rw [List.mem_singleton] at hq
    subst hq
    exact ⟨wmEx, wmEx_eval⟩
  exact ⟨(C9_compare_batch ([wpEx] ++ wpBad :: [])).1 [wpEx] wpBad [] _ rfl hpre wpBad_eval,
    (C9_compare_batch [wpEx]).2 hpre⟩

end Mortgage
